import Mathlib

/-!
Shallow embedding of `src/browser-ext/popup.js` (the popup control surface of
the linkedin-to-airtable browser extension) and theorems checking the
specification claims about its bridge logic: locale negotiation, endpoint
catalog loading, the persisted schema-version preference, inbound message
filtering, the remote singleton bootstrap, and the command payload builders.
-/

namespace PopupJs

/-- The closed schema-version enumeration, `SPEC_OPTIONS` in popup.js. -/
def SPEC_OPTIONS : List String := ["legacy", "stable", "beta"]

/-- The persisted storage key `STORAGE_KEYS.schemaVersion` in popup.js. -/
def schemaVersionKey : String := "schemaVersion"

/-- An endpoint descriptor from the bundled endpoints.json resource
(`{ name, url }`). A falsy placeholder in the raw list is modelled as `none`
at the use sites. -/
structure Endpoint where
  name : String
  url : String
deriving DecidableEq, Repr

/-- A rendered option of a select control: its value attribute and its
inner text. -/
structure SelectOption where
  value : String
  text : String
deriving DecidableEq, Repr

/-- The popup UI state the embedded functions act on: the option lists of the
language and API selectors, the shared enabled flag written by
`toggleEnabled`, and whether the locales handler has issued the
endpoints.json fetch. -/
structure PopupState where
  langOptions : List SelectOption
  apiOptions : List SelectOption
  enabled : Bool
  endpointFetchRequested : Bool
deriving DecidableEq, Repr

/-- `loadLangs` in popup.js: clears the language selector, appends one option
per language (value and text both the locale code), then calls
`toggleEnabled(langs.length > 0)`. -/
def loadLangs (langs : List String) (st : PopupState) : PopupState :=
  { st with
    langOptions := langs.foldl (fun acc lang => acc ++ [⟨lang, lang⟩]) []
    enabled := decide (0 < langs.length) }

/-- `loadApiEndpoints` in popup.js: clears the API selector, appends an option
only for each truthy entry (`if (api_endpoint) ...`), then calls
`toggleEnabled(api_endpoints.length > 0)` — note: on the RAW list length. -/
def loadApiEndpoints (api_endpoints : List (Option Endpoint)) (st : PopupState) : PopupState :=
  { st with
    apiOptions := api_endpoints.foldl
      (fun acc e =>
        match e with
        | some api_endpoint => acc ++ [⟨api_endpoint.url, api_endpoint.name⟩]
        | none => acc) []
    enabled := decide (0 < api_endpoints.length) }

/-- The locale merge performed by the `locales` message handler in popup.js:
`if (supported.includes(user)) supported.splice(supported.indexOf(user), 1);
supported.unshift(user);`. `splice(indexOf(user), 1)` removes exactly the
first occurrence of `user`, which is `List.erase`. -/
def mergeLocales (supported : List String) (user : String) : List String :=
  let afterSplice := if supported.contains user then supported.erase user else supported
  user :: afterSplice

/-- The `value` carried by a `locales` inbound message, per the declared
interface: `{ supported: string[], user: string }`. -/
structure LocalesValue where
  supported : List String
  user : String
deriving DecidableEq, Repr

/-- An inbound runtime message `{ key, value }` as consumed by the popup. -/
structure InboundMessage where
  key : String
  value : LocalesValue
deriving DecidableEq, Repr

/-- Body of the `locales` branch of the onMessage listener: merge the locales,
load them into the language selector, then fetch endpoints.json (modelled as
setting the fetch-request flag; the fetch result later goes through
`loadApiEndpoints`). -/
def handleLocales (value : LocalesValue) (st : PopupState) : PopupState :=
  let st1 := loadLangs (mergeLocales value.supported value.user) st
  { st1 with endpointFetchRequested := true }

/-- The `chrome.runtime.onMessage` listener in popup.js: the message is
handled only when `sender.id === extensionId && message.key === 'locales'`;
otherwise nothing happens. -/
def onMessage (extensionId : String) (senderId : String) (message : InboundMessage)
    (st : PopupState) : PopupState :=
  if senderId = extensionId ∧ message.key = "locales" then
    handleLocales message.value st
  else st

/-- Literal fragment of the liToApiButton click payload before the
interpolated locale. -/
def sendCodePre : String := "liToJrInstance.preferLocale = \x27"

/-- Literal fragment of the liToApiButton click payload between the
interpolated locale and the interpolated endpoint. -/
def sendCodeMid : String := "\x27;liToJrInstance.parseAndSendToApi(\x27"

/-- Literal fragment of the liToApiButton click payload after the
interpolated endpoint. -/
def sendCodePost : String := "\x27);"

/-- The code payload dispatched by the liToApiButton click handler:
`liToJrInstance.preferLocale = '<lang>';liToJrInstance.parseAndSendToApi('<endpoint>');`.
It interpolates the selected locale and the selected endpoint — and nothing
else. -/
def runAndSendToApiCode (selectedLang selectedEndpoint : String) : String :=
  sendCodePre ++ selectedLang ++ sendCodeMid ++ selectedEndpoint ++ sendCodePost

/-- Literal fragment of `getRunAndShowCode` between the interpolated locale
and the interpolated version. -/
def showCodeMid : String := "\x27;liToJrInstance.parseAndShowOutput(\x27"

/-- `getRunAndShowCode(version)` in popup.js:
`liToJrInstance.preferLocale = '<lang>';liToJrInstance.parseAndShowOutput('<version>');`.
This is the payload that carries the schema version. -/
def getRunAndShowCode (selectedLang version : String) : String :=
  sendCodePre ++ selectedLang ++ showCodeMid ++ version ++ sendCodePost

/-- `getSpecVersion` in popup.js, with the storage read reified: `read` is
`Except.error ()` when `chrome.storage.sync.get` throws (the catch branch),
and `Except.ok stored` with the optional value under the schemaVersion key
otherwise. The callback computes `storedSetting = result[key] || ''` and
resolves the stored value only when it is in `SPEC_OPTIONS`, the fallback
(the value currently selected in the dropdown) otherwise. Always resolves;
never rejects. -/
def getSpecVersion (fallbackVersion : String) (read : Except Unit (Option String)) : String :=
  match read with
  | .error _ => fallbackVersion
  | .ok result =>
    let storedSetting := result.getD ""
    if SPEC_OPTIONS.contains storedSetting then storedSetting else fallbackVersion

/-- `setSpecVersion` in popup.js: `chrome.storage.sync.set({ [schemaVersion]:
version })`. Persisted storage is a key-to-value map; `sync.set` merges the
given single-key object into it. -/
def setSpecVersion (version : String) (storage : String → Option String) :
    String → Option String :=
  fun k => if k = schemaVersionKey then some version else storage k

/-- A logic instance living in the remote (content-script) context:
`new LinkedinToResumeJson(isDebug)`, together with whatever in-progress state
it currently holds (abstracted as a number). -/
structure RemoteInstance where
  isDebug : Bool
  inProgress : Nat
deriving DecidableEq, Repr

/-- State of the remote execution context as touched by
`createMainInstanceCode`: the page href, the content-script-scope class
binding and the window-scope class binding (abstracted as numeric ids), the
scope variable `liToJrInstance` (absent = `undefined`), and a ghost counter
of constructor invocations used to state the singleton property. -/
structure RemoteContext where
  href : String
  contentScriptClass : Nat
  windowClass : Nat
  liToJrInstance : Option RemoteInstance
  constructedCount : Nat
deriving DecidableEq, Repr

/-- The debug marker `createMainInstanceCode` looks for in the page URL. -/
def debugMarker : String := "li2jr_debug=true"

/-- Boolean substring test modelling `String.prototype.includes`. -/
def strIncludes (hay needle : String) : Bool :=
  decide (needle.data <:+: hay.data)

/-- Effect of executing `createMainInstanceCode` in the remote context:
`isDebug = window.location.href.includes('li2jr_debug=true');`
`window.LinkedinToResumeJson = isDebug ? LinkedinToResumeJson : window.LinkedinToResumeJson;`
`liToJrInstance = typeof(liToJrInstance) !== 'undefined' ? liToJrInstance : new LinkedinToResumeJson(isDebug);`
A fresh instance is constructed only when the scope variable is undefined;
otherwise the existing instance (and the state it holds) is kept as is. -/
def execCreateMainInstanceCode (ctx : RemoteContext) : RemoteContext :=
  let isDebug := strIncludes ctx.href debugMarker
  let windowClassAfter := if isDebug then ctx.contentScriptClass else ctx.windowClass
  match ctx.liToJrInstance with
  | some inst =>
    { ctx with
      windowClass := windowClassAfter
      liToJrInstance := some inst }
  | none =>
    { ctx with
      windowClass := windowClassAfter
      liToJrInstance := some ⟨isDebug, 0⟩
      constructedCount := ctx.constructedCount + 1 }

/-- A concrete popup state used by witnesses. -/
def popupState0 : PopupState := ⟨[], [], false, false⟩

/-- A concrete well-formed locales message used by witnesses. -/
def localesMsg0 : InboundMessage := ⟨"locales", ⟨["en"], "fr"⟩⟩

/-- A concrete message with an unrecognized key, used by witnesses. -/
def unknownMsg0 : InboundMessage := ⟨"unknown", ⟨["en"], "fr"⟩⟩

/-- A concrete remote context with no instance bound yet. -/
def remoteCtx0 : RemoteContext := ⟨"https://www.linkedin.com/in/someone", 1, 2, none, 0⟩

/-- A concrete remote instance holding some in-progress state. -/
def remoteInst0 : RemoteInstance := ⟨false, 5⟩

/-- A concrete remote context that already holds `remoteInst0`. -/
def remoteCtx1 : RemoteContext := ⟨"https://www.linkedin.com/in/someone", 1, 2, some ⟨false, 5⟩, 3⟩

/-- Helper: the option-appending fold of `loadApiEndpoints` builds exactly the
truthy entries, in order, rendered as options. -/
theorem loadApiEndpoints_foldl_eq (raw : List (Option Endpoint)) (acc : List SelectOption) :
    raw.foldl
      (fun acc e =>
        match e with
        | some api_endpoint => acc ++ [⟨api_endpoint.url, api_endpoint.name⟩]
        | none => acc) acc
      = acc ++ (raw.filterMap id).map (fun ep => SelectOption.mk ep.url ep.name) := by
  induction raw generalizing acc with
  | nil => simp
  | cons e raw ih =>
    cases e with
    | none => simpa using ih acc
    | some ep => simp [ih, List.filterMap_cons]

/-- C8: `loadApiEndpoints` renders exactly the truthy entries of the raw
endpoint list, with their relative order preserved (falsy placeholders are
dropped). -/
theorem loadApiEndpoints_filters_truthy (raw : List (Option Endpoint)) (st : PopupState) :
    (loadApiEndpoints raw st).apiOptions
      = (raw.filterMap id).map (fun ep => SelectOption.mk ep.url ep.name) := by
  simpa [loadApiEndpoints] using loadApiEndpoints_foldl_eq raw []

/-- C6 counterexample: the raw list `[null]` yields an empty filtered result,
yet the control surface ends up ENABLED, because `loadApiEndpoints` toggles
on the raw list length (`api_endpoints.length > 0`), not on the number of
surviving options. This refutes the claim that every load with an empty
filtered result disables the selection control. -/
theorem loadApiEndpoints_allFalsy_enabled_counterexample :
    (loadApiEndpoints [none] popupState0).apiOptions = []
    ∧ (loadApiEndpoints [none] popupState0).enabled = true := by
  constructor <;> rfl

/-- C6 (amended): the endpoint selection control is disabled exactly when the
RAW endpoint list is empty; in particular an empty raw list yields an empty
option list and a disabled control (and the load is total, never an error),
but a non-empty raw list of only falsy placeholders leaves the control
enabled despite its empty filtered result. -/
theorem loadApiEndpoints_enabled_iff_raw_nonempty (raw : List (Option Endpoint))
    (st : PopupState) :
    ((loadApiEndpoints raw st).enabled = true ↔ raw ≠ [])
    ∧ (loadApiEndpoints [] st).apiOptions = []
    ∧ (loadApiEndpoints [] st).enabled = false := by
  refine ⟨?_, rfl, rfl⟩
  simp [loadApiEndpoints, List.length_pos]

/-- C1 counterexample: the merge removes only the FIRST occurrence of the
user locale and performs no other deduplication, so a `supported` list with
a repeated entry violates the claimed each-element-exactly-once property:
merging `["en", "en"]` with user `"fr"` yields `["fr", "en", "en"]`, in which
`"en"` occurs twice. -/
theorem mergeLocales_duplicate_user_counterexample :
    mergeLocales ["en", "en"] "fr" = ["fr", "en", "en"]
    ∧ (mergeLocales ["en", "en"] "fr").count "en" ≠ 1 := by
  constructor <;> decide

/-- C1 (amended): for every DUPLICATE-FREE sequence `supported` and every
locale `user`, the merged list has `user` at index 0, contains each element
of `supported` and `user` exactly once (it is duplicate-free, and its members
are exactly `user` and the members of `supported`), and its tail is a
sublist of `supported`, so all surviving entries retain their original
relative order. -/
theorem mergeLocales_nodup_spec (supported : List String) (user : String)
    (h : supported.Nodup) :
    (mergeLocales supported user).head? = some user
    ∧ (mergeLocales supported user).Nodup
    ∧ (∀ x, x ∈ mergeLocales supported user ↔ x = user ∨ x ∈ supported)
    ∧ (mergeLocales supported user).tail.Sublist supported := by
  by_cases hm : user ∈ supported
  · have hrw : mergeLocales supported user = user :: supported.erase user := by
      simp [mergeLocales, hm]
    rw [hrw]
    refine ⟨rfl, ?_, ?_, ?_⟩
    · exact List.nodup_cons.mpr ⟨h.not_mem_erase, h.erase user⟩
    · intro x
      simp only [List.mem_cons, h.mem_erase_iff]
      constructor
      · rintro (hx | ⟨-, hx⟩)
        · exact Or.inl hx
        · exact Or.inr hx
      · rintro (hx | hx)
        · exact Or.inl hx
        · by_cases hxu : x = user
          · exact Or.inl hxu
          · exact Or.inr ⟨hxu, hx⟩
    · simpa using List.erase_sublist user supported
  · have hrw : mergeLocales supported user = user :: supported := by
      simp [mergeLocales, hm]
    rw [hrw]
    refine ⟨rfl, List.nodup_cons.mpr ⟨hm, h⟩, ?_, ?_⟩
    · intro x; simp [List.mem_cons]
    · simp

/-- C1 witness: the amended merge specification evaluated at
`supported = ["en", "fr", "de"]`, `user = "fr"`. -/
theorem mergeLocales_nodup_spec_witness :
    (mergeLocales ["en", "fr", "de"] "fr").head? = some "fr"
    ∧ (mergeLocales ["en", "fr", "de"] "fr").Nodup
    ∧ ("de" ∈ mergeLocales ["en", "fr", "de"] "fr" ↔ "de" = "fr" ∨ "de" ∈ ["en", "fr", "de"])
    ∧ (mergeLocales ["en", "fr", "de"] "fr").tail.Sublist ["en", "fr", "de"] :=
  have h := mergeLocales_nodup_spec ["en", "fr", "de"] "fr" (by decide)
  ⟨h.1, h.2.1, h.2.2.1 "de", h.2.2.2⟩

/-- C7: when the user locale is absent from `supported`, the merge is exactly
`user` prepended to `supported`, so the result is one element longer; for
empty `supported` the result is `[user]`, whose first element is the
pre-selected default. -/
theorem mergeLocales_user_absent (supported : List String) (user : String)
    (h : user ∉ supported) :
    mergeLocales supported user = user :: supported
    ∧ (mergeLocales supported user).length = supported.length + 1
    ∧ mergeLocales [] user = [user]
    ∧ (mergeLocales [] user).head? = some user := by
  have hrw : mergeLocales supported user = user :: supported := by
    simp [mergeLocales, h]
  exact ⟨hrw, by rw [hrw]; simp, rfl, rfl⟩

/-- C7 witness: the absent-user merge evaluated at
`supported = ["en", "de"]`, `user = "fr"`. -/
theorem mergeLocales_user_absent_witness :
    mergeLocales ["en", "de"] "fr" = ["fr", "en", "de"]
    ∧ (mergeLocales ["en", "de"] "fr").length = (["en", "de"] : List String).length + 1
    ∧ mergeLocales [] "fr" = ["fr"]
    ∧ (mergeLocales [] "fr").head? = some "fr" :=
  mergeLocales_user_absent ["en", "de"] "fr" (by decide)

/-- C4: the onMessage listener handles a message exactly when the sender id
equals this extension's id AND the message key is `locales`; in every other
case the state of the control surface is left unchanged and no error is
raised (the listener is total). -/
theorem onMessage_filtering (extId senderId : String) (message : InboundMessage)
    (st : PopupState) :
    (senderId = extId ∧ message.key = "locales" →
      onMessage extId senderId message st = handleLocales message.value st)
    ∧ (¬(senderId = extId ∧ message.key = "locales") →
      onMessage extId senderId message st = st) := by
  constructor
  · intro h
    unfold onMessage
    rw [if_pos h]
  · intro h
    unfold onMessage
    rw [if_neg h]

/-- C4 witness: a well-addressed locales message is handled; a message from a
foreign sender and a message with an unknown key are both dropped with the
state unchanged. -/
theorem onMessage_filtering_witness :
    onMessage "ext-id" "ext-id" localesMsg0 popupState0
      = handleLocales localesMsg0.value popupState0
    ∧ onMessage "ext-id" "other-id" localesMsg0 popupState0 = popupState0
    ∧ onMessage "ext-id" "ext-id" unknownMsg0 popupState0 = popupState0 :=
  ⟨(onMessage_filtering "ext-id" "ext-id" localesMsg0 popupState0).1 ⟨rfl, rfl⟩,
   (onMessage_filtering "ext-id" "other-id" localesMsg0 popupState0).2 (by decide),
   (onMessage_filtering "ext-id" "ext-id" unknownMsg0 popupState0).2 (by decide)⟩

/-- C2 counterexample: the payload dispatched by the send-to-endpoint action
contains NO schema version at all. At locale `"en"`, version `"beta"` and
endpoint `"https://api.example.com"`, the characters of `"beta"` do not occur
as a contiguous substring of the payload, so the payload cannot carry that
exact version, refuting the claim that the command payload contains (and
applies) the selected version. -/
theorem runAndSendToApiCode_version_missing :
    ¬ ("beta".data <:+: (runAndSendToApiCode "en" "https://api.example.com").data) := by
  intro h
  have hb : 'b' ∈ (runAndSendToApiCode "en" "https://api.example.com").data :=
    h.subset (by decide)
  exact absurd hb (by decide)

/-- C2 (amended): the payload built by the send action interpolates exactly
the selected locale and the selected endpoint — the payload decomposes into
fixed literal fragments around them, and both occur verbatim as contiguous
substrings — but it carries no schema version; the schema version is
interpolated only into the run-and-show payload. -/
theorem runAndSendToApiCode_payload_content (selectedLang selectedEndpoint version : String) :
    (runAndSendToApiCode selectedLang selectedEndpoint).data
      = sendCodePre.data ++ selectedLang.data ++ sendCodeMid.data
          ++ selectedEndpoint.data ++ sendCodePost.data
    ∧ (selectedEndpoint.data <:+: (runAndSendToApiCode selectedLang selectedEndpoint).data)
    ∧ (selectedLang.data <:+: (runAndSendToApiCode selectedLang selectedEndpoint).data)
    ∧ (version.data <:+: (getRunAndShowCode selectedLang version).data) := by
  refine ⟨by simp [runAndSendToApiCode, String.data_append], ?_, ?_, ?_⟩
  · exact ⟨(sendCodePre ++ selectedLang ++ sendCodeMid).data, sendCodePost.data,
      by simp [runAndSendToApiCode, String.data_append, List.append_assoc]⟩
  · exact ⟨sendCodePre.data, (sendCodeMid ++ selectedEndpoint ++ sendCodePost).data,
      by simp [runAndSendToApiCode, String.data_append, List.append_assoc]⟩
  · exact ⟨(sendCodePre ++ selectedLang ++ showCodeMid).data, sendCodePost.data,
      by simp [getRunAndShowCode, String.data_append, List.append_assoc]⟩

/-- C3: `getSpecVersion` resolves to the persisted value exactly when that
value lies in the closed enumeration; it resolves to the current UI value
(the passed-in fallback, not a fixed constant and not the invalid stored
string) when the read throws, the stored value is absent, or the stored
value lies outside the enumeration. The embedding is a total function, so a
storage failure is never raised to the caller. -/
theorem getSpecVersion_fallback_policy (fallbackVersion : String)
    (_hfb : fallbackVersion ∈ SPEC_OPTIONS) :
    (∀ s, s ∈ SPEC_OPTIONS → getSpecVersion fallbackVersion (Except.ok (some s)) = s)
    ∧ getSpecVersion fallbackVersion (Except.error ()) = fallbackVersion
    ∧ getSpecVersion fallbackVersion (Except.ok none) = fallbackVersion
    ∧ (∀ s, s ∉ SPEC_OPTIONS → getSpecVersion fallbackVersion (Except.ok (some s)) = fallbackVersion) := by
  refine ⟨?_, rfl, rfl, ?_⟩
  · intro s hs
    simp [getSpecVersion, List.contains, hs]
  · intro s hs
    simp [getSpecVersion, List.contains, hs]

/-- C3 witness: the fallback policy evaluated at current UI value `"beta"`:
a stored `"stable"` wins, an absent value, the invalid stored string
`"not-a-version"`, and a throwing read all resolve to `"beta"`. -/
theorem getSpecVersion_fallback_policy_witness :
    getSpecVersion "beta" (Except.ok (some "stable")) = "stable"
    ∧ getSpecVersion "beta" (Except.error ()) = "beta"
    ∧ getSpecVersion "beta" (Except.ok none) = "beta"
    ∧ getSpecVersion "beta" (Except.ok (some "not-a-version")) = "beta" :=
  have h := getSpecVersion_fallback_policy "beta" (by decide)
  ⟨h.1 "stable" (by decide), h.2.1, h.2.2.1, h.2.2.2 "not-a-version" (by decide)⟩

/-- C9: whatever the persisted storage state — a successful read of any
stored value, an absent value, or a throwing read — the value `getSpecVersion`
resolves to is a member of the closed enumeration, provided the current UI
value is (and it always is, since the dropdown offers only those options). -/
theorem getSpecVersion_closed_enum (fallbackVersion : String)
    (hfb : fallbackVersion ∈ SPEC_OPTIONS) (read : Except Unit (Option String)) :
    getSpecVersion fallbackVersion read ∈ SPEC_OPTIONS := by
  cases read with
  | error e => exact hfb
  | ok result =>
    show (if SPEC_OPTIONS.contains (result.getD "") then result.getD ""
      else fallbackVersion) ∈ SPEC_OPTIONS
    split
    · next hc => exact List.elem_iff.mp hc
    · exact hfb

/-- C9 witness: an arbitrary invalid stored value still resolves inside the
enumeration (here, to the UI value `"legacy"`). -/
theorem getSpecVersion_closed_enum_witness :
    getSpecVersion "legacy" (Except.ok (some "not-a-version")) ∈ SPEC_OPTIONS :=
  getSpecVersion_closed_enum "legacy" (by decide) (Except.ok (some "not-a-version"))

/-- C10: the preference write touches only the `schemaVersion` key: under
every prior storage state, every other key keeps its previous value. -/
theorem setSpecVersion_frame (version : String) (storage : String → Option String)
    (k : String) (hk : k ≠ schemaVersionKey) :
    setSpecVersion version storage k = storage k := by
  simp [setSpecVersion, hk]

/-- C10 witness: writing `"beta"` over an empty storage leaves the unrelated
key `"otherKey"` unset. -/
theorem setSpecVersion_frame_witness :
    setSpecVersion "beta" (fun _ => none) "otherKey" = none :=
  setSpecVersion_frame "beta" (fun _ => none) "otherKey" (by decide)

/-- C5: executing the bootstrap code is idempotent with respect to instance
construction: a second execution leaves the instance binding and the
construction count of the first unchanged; from a context with no instance,
one execution constructs exactly one instance; and in a context that already
holds an instance, execution keeps that exact instance (with the in-progress
state it holds) and constructs nothing. -/
theorem createMainInstanceCode_singleton (ctx : RemoteContext) :
    (execCreateMainInstanceCode (execCreateMainInstanceCode ctx)).liToJrInstance
      = (execCreateMainInstanceCode ctx).liToJrInstance
    ∧ (execCreateMainInstanceCode (execCreateMainInstanceCode ctx)).constructedCount
      = (execCreateMainInstanceCode ctx).constructedCount
    ∧ (ctx.liToJrInstance = none →
        (execCreateMainInstanceCode ctx).constructedCount = ctx.constructedCount + 1
        ∧ (execCreateMainInstanceCode ctx).liToJrInstance
          = some ⟨strIncludes ctx.href debugMarker, 0⟩)
    ∧ (∀ inst, ctx.liToJrInstance = some inst →
        (execCreateMainInstanceCode ctx).liToJrInstance = some inst
        ∧ (execCreateMainInstanceCode ctx).constructedCount = ctx.constructedCount) := by
  cases hi : ctx.liToJrInstance with
  | some inst => simp [execCreateMainInstanceCode, hi]
  | none => simp [execCreateMainInstanceCode, hi]

/-- C5 witness: from a fresh context the bootstrap constructs exactly one
instance and a repeat execution changes nothing; from a context already
holding an instance, that instance and the construction count survive. -/
theorem createMainInstanceCode_singleton_witness :
    (execCreateMainInstanceCode (execCreateMainInstanceCode remoteCtx0)).liToJrInstance
      = (execCreateMainInstanceCode remoteCtx0).liToJrInstance
    ∧ (execCreateMainInstanceCode remoteCtx0).constructedCount = 0 + 1
    ∧ (execCreateMainInstanceCode remoteCtx1).liToJrInstance = some remoteInst0
    ∧ (execCreateMainInstanceCode remoteCtx1).constructedCount = 3 :=
  ⟨(createMainInstanceCode_singleton remoteCtx0).1,
   ((createMainInstanceCode_singleton remoteCtx0).2.2.1 rfl).1,
   ((createMainInstanceCode_singleton remoteCtx1).2.2.2 remoteInst0 rfl).1,
   ((createMainInstanceCode_singleton remoteCtx1).2.2.2 remoteInst0 rfl).2⟩

end PopupJs
